import Mathlib

/-!
Verification of the WARP proxy-pool subsystem of the portfolio-backtest
backend (`app/utils/proxy_pool.py` and the `RateLimiter` / `retry_with_proxy`
helpers of `app/services/enhanced_data_service.py`).

The Python code is shallowly embedded:
* Python `int` becomes `Int` (counters, ports), Python `float` becomes `ℚ`
  (every IEEE-754 double is an exact rational with denominator dividing
  `2 ^ 1074`, hence an exact finite decimal),
* `datetime` values become abstract `Nat` tick counts; `isoformat` /
  `fromisoformat` become their decimal rendering and parsing (both are
  injective, nonempty-string producing encodings, like the originals),
* Redis hashes become `StoredDict`, a record of optional string fields,
* mutation becomes explicit state passing; `datetime.now()` and probe
  outcomes become parameters; raised exceptions become `Option`/`Except`.
-/

/-- Decimal digit to its character, as in Python's `str` of an `int`. -/
def digitChar : Nat → Char
  | 0 => '0' | 1 => '1' | 2 => '2' | 3 => '3' | 4 => '4'
  | 5 => '5' | 6 => '6' | 7 => '7' | 8 => '8' | _ => '9'

/-- Character to its decimal digit value, as used when parsing an `int`. -/
def charVal (c : Char) : Nat := c.toNat - 48

/-- Little-endian decimal digits of a natural number, fuel-based so that it
computes by structural recursion. -/
def natDigitsAux : Nat → Nat → List Nat
  | 0, _ => []
  | _ + 1, 0 => []
  | fuel + 1, n + 1 => (n + 1) % 10 :: natDigitsAux fuel ((n + 1) / 10)

/-- Little-endian decimal digits of a natural number. -/
def natDigits (n : Nat) : List Nat := natDigitsAux n n

/-- Characters of the decimal representation of a natural number
(most-significant first), i.e. Python's `str(n)` for `n : int`, `n ≥ 0`. -/
def natChars (n : Nat) : List Char :=
  if n = 0 then ['0'] else ((natDigits n).map digitChar).reverse

/-- Python's `str(n)` for a nonnegative `int`. -/
def natToString (n : Nat) : String := String.mk (natChars n)

/-- Parse a list of characters as an unsigned decimal numeral; `none` when the
list is empty or contains a non-digit (Python's `int(s)` raising). -/
def parseNatChars (cs : List Char) : Option Nat :=
  if cs ≠ [] ∧ cs.all Char.isDigit then
    some (Nat.ofDigits 10 (cs.reverse.map charVal))
  else none

/-- Python's `int(s)` for an unsigned decimal string, `none` on failure. -/
def parseNat (s : String) : Option Nat := parseNatChars s.data

theorem natDigitsAux_eq_digits :
    ∀ fuel n, n ≤ fuel → natDigitsAux fuel n = Nat.digits 10 n := by
  intro fuel
  induction fuel with
  | zero =>
    intro n hn
    interval_cases n
    simp [natDigitsAux]
  | succ fuel ih =>
    intro n hn
    match n with
    | 0 => simp [natDigitsAux]
    | m + 1 =>
      rw [natDigitsAux, Nat.digits_def' (by norm_num : (1:Nat) < 10) (Nat.succ_pos m)]
      congr 1
      exact ih _ (Nat.le_of_lt_succ (Nat.lt_of_lt_of_le
        (Nat.div_lt_self (Nat.succ_pos m) (by norm_num)) hn))

theorem natDigits_eq_digits (n : Nat) : natDigits n = Nat.digits 10 n :=
  natDigitsAux_eq_digits n n le_rfl

theorem charVal_digitChar {d : Nat} (hd : d < 10) : charVal (digitChar d) = d := by
  interval_cases d <;> rfl

theorem isDigit_digitChar {d : Nat} (hd : d < 10) : (digitChar d).isDigit = true := by
  interval_cases d <;> rfl

theorem natChars_ne_nil (n : Nat) : natChars n ≠ [] := by
  unfold natChars
  split
  · simp
  · rename_i h
    intro hcon
    have h1 : (natDigits n).length = 0 := by
      simpa using congrArg List.length hcon
    rw [natDigits_eq_digits] at h1
    exact h (Nat.digits_eq_nil_iff_eq_zero.mp (List.length_eq_zero.mp h1))

theorem natChars_all_digit (n : Nat) : ∀ c ∈ natChars n, c.isDigit = true := by
  intro c hc
  unfold natChars at hc
  split at hc
  · simp only [List.mem_singleton] at hc
    subst hc
    rfl
  · rw [List.mem_reverse, List.mem_map] at hc
    obtain ⟨d, hd, rfl⟩ := hc
    rw [natDigits_eq_digits] at hd
    exact isDigit_digitChar (Nat.digits_lt_base (by norm_num) hd)

theorem ofDigits_natChars_val (n : Nat) :
    Nat.ofDigits 10 ((natChars n).reverse.map charVal) = n := by
  by_cases h : n = 0
  · subst h
    rfl
  · rw [natChars, if_neg h, List.reverse_reverse, List.map_map]
    have hmap : (natDigits n).map (charVal ∘ digitChar) = (natDigits n).map id := by
      apply List.map_congr_left
      intro d hd
      rw [natDigits_eq_digits] at hd
      exact charVal_digitChar (Nat.digits_lt_base (by norm_num) hd)
    rw [hmap, List.map_id, natDigits_eq_digits]
    exact Nat.ofDigits_digits 10 n

theorem parseNatChars_natChars (n : Nat) : parseNatChars (natChars n) = some n := by
  unfold parseNatChars
  rw [if_pos ⟨natChars_ne_nil n, List.all_eq_true.mpr (natChars_all_digit n)⟩,
    ofDigits_natChars_val]

/-- Zero-padded decimal characters, exactly `e` characters when `k < 10 ^ e`
(the fractional part of a fixed-point float rendering). -/
def padChars (e k : Nat) : List Char :=
  List.replicate (e - (natChars k).length) '0' ++ natChars k

/-- Python's `str(b).lower()` for a `bool`, as written by `to_dict`. -/
def boolToString (b : Bool) : String := if b then "true" else "false"

/-- Python's `str.lower` on a character (ASCII range, which is all that the
stored fields contain). -/
def lowerChar (c : Char) : Char := if c.isUpper then Char.ofNat (c.toNat + 32) else c

/-- Python's `str.lower`, character by character. -/
def strLower (s : String) : String := String.mk (s.data.map lowerChar)

/-- Python's `str(x).lower() == 'true'` boolean decoding used by `from_dict`. -/
def decodeBool (s : String) : Bool := strLower s == "true"

/-- Python's `str(n)` for an `int` (optional sign, then decimal digits). -/
def intToString (n : Int) : String :=
  String.mk (if n < 0 then '-' :: natChars n.natAbs else natChars n.natAbs)

/-- List-level body of `parseInt`. -/
def parseIntChars : List Char → Option Int
  | [] => none
  | c :: cs =>
    if c = '-' then (parseNatChars cs).map (fun k => -(k : Int))
    else (parseNatChars (c :: cs)).map (fun k => (k : Int))

/-- Python's `int(s)` on a signed decimal string, `none` on failure
(modelling the `ValueError` raised on malformed input). -/
def parseInt (s : String) : Option Int := parseIntChars s.data

/-- Split a character list at the first decimal point. -/
def splitDot : List Char → Option (List Char × List Char)
  | [] => none
  | c :: cs =>
    if c = '.' then some ([], cs)
    else (splitDot cs).map (fun p => (c :: p.1, p.2))

/-- List-level body of `parseFloat`: either `intpart.fracpart` or a plain
integer numeral. -/
def parseFloatChars (cs : List Char) : Option ℚ :=
  match splitDot cs with
  | some (ip, fp) =>
    match parseNatChars ip, parseNatChars fp with
    | some iv, some fv => some ((iv : ℚ) + (fv : ℚ) / (10 : ℚ) ^ fp.length)
    | _, _ => none
  | none => (parseNatChars cs).map (fun k => (k : ℚ))

/-- Python's `float(s)` restricted to the plain signed fixed-point decimal
strings that `str(float)` produces for the values arising here; `none` models
the `ValueError` on malformed input. -/
def parseFloat (s : String) : Option ℚ :=
  match s.data with
  | [] => none
  | c :: cs =>
    if c = '-' then (parseFloatChars cs).map (fun q => -q)
    else parseFloatChars (c :: cs)

/-- Exponent of a power-of-ten scaling making `q` an integer (the least one,
floored at 1 so at least one fractional digit is printed; 1074 suffices for
every IEEE-754 double value). -/
def decExp (q : ℚ) : Nat :=
  match (List.range 1075).find? (fun k => (q * (10 : ℚ) ^ k).den == 1) with
  | some k => max 1 k
  | none => 1

/-- Python's `str(x)` for a float with a finite decimal expansion: optional
sign, integer part, decimal point, zero-padded fractional part. -/
def floatToString (q : ℚ) : String :=
  String.mk ((if q < 0 then ['-'] else []) ++
    natChars ((q * (10 : ℚ) ^ decExp q).num.natAbs / 10 ^ decExp q) ++
    '.' :: padChars (decExp q) ((q * (10 : ℚ) ^ decExp q).num.natAbs % 10 ^ decExp q))

theorem parseNat_natToString (n : Nat) : parseNat (natToString n) = some n :=
  parseNatChars_natChars n

theorem natToString_ne_empty (n : Nat) : natToString n ≠ "" := by
  unfold natToString
  intro h
  exact natChars_ne_nil n (congrArg String.data h)

theorem parseInt_intToString (n : Int) : parseInt (intToString n) = some n := by
  show parseIntChars _ = some n
  unfold intToString
  by_cases h : n < 0
  · have habs : ((n.natAbs : Nat) : Int) = -n := Int.ofNat_natAbs_of_nonpos (le_of_lt h)
    rw [if_pos h]
    simp [parseIntChars, parseNatChars_natChars, habs]
  · have habs : ((n.natAbs : Nat) : Int) = n := Int.natAbs_of_nonneg (not_lt.mp h)
    rw [if_neg h]
    obtain ⟨c, cs, hc⟩ := List.exists_cons_of_ne_nil (natChars_ne_nil n.natAbs)
    have hdig : c.isDigit = true := by
      apply natChars_all_digit n.natAbs
      rw [hc]
      exact List.mem_cons_self c cs
    have hne : c ≠ '-' := by
      intro hcon
      rw [hcon] at hdig
      exact absurd hdig (by decide)
    rw [hc]
    have hstep : parseIntChars (c :: cs) = (parseNatChars (c :: cs)).map (fun k => (k : Int)) := by
      simp [parseIntChars, hne]
    rw [hstep, ← hc, parseNatChars_natChars]
    simp [habs]

theorem ofDigits_replicate_zero (z : Nat) :
    Nat.ofDigits 10 (List.replicate z 0) = 0 := by
  induction z with
  | zero => rfl
  | succ z ih => rw [List.replicate_succ, Nat.ofDigits_cons, ih]

theorem natChars_length_le {k e : Nat} (hk : k < 10 ^ e) (he : 0 < e) :
    (natChars k).length ≤ e := by
  by_cases h : k = 0
  · subst h
    simpa [natChars] using he
  · rw [natChars, if_neg h, List.length_reverse, List.length_map,
      natDigits_eq_digits, Nat.digits_len 10 k (by norm_num) h]
    have := Nat.log_lt_of_lt_pow h hk
    omega

theorem parseNatChars_padChars {e k : Nat} (hk : k < 10 ^ e) (he : 0 < e) :
    parseNatChars (padChars e k) = some k := by
  unfold padChars parseNatChars
  rw [if_pos]
  · congr 1
    rw [List.reverse_append, List.map_append, Nat.ofDigits_append,
      ofDigits_natChars_val]
    have hrep : (List.replicate (e - (natChars k).length) '0').reverse.map charVal
        = List.replicate (e - (natChars k).length) 0 := by
      rw [List.reverse_replicate, List.map_replicate]
      rfl
    rw [hrep, ofDigits_replicate_zero]
    simp
  · constructor
    · intro hcon
      have := congrArg List.length hcon
      simp at this
      exact natChars_ne_nil k this.2
    · rw [List.all_eq_true]
      intro c hc
      rcases List.mem_append.mp hc with h | h
      · rw [List.eq_of_mem_replicate h]
        rfl
      · exact natChars_all_digit k c h

theorem padChars_length {e k : Nat} (hk : k < 10 ^ e) (he : 0 < e) :
    (padChars e k).length = e := by
  have := natChars_length_le hk he
  unfold padChars
  rw [List.length_append, List.length_replicate]
  omega

theorem splitDot_append (ip fp : List Char) (hip : ∀ c ∈ ip, c ≠ '.') :
    splitDot (ip ++ '.' :: fp) = some (ip, fp) := by
  induction ip with
  | nil => simp [splitDot]
  | cons c cs ih =>
    have hc : c ≠ '.' := hip c (List.mem_cons_self c cs)
    rw [List.cons_append, splitDot, if_neg hc,
      ih (fun d hd => hip d (List.mem_cons_of_mem c hd)), Option.map_some']

theorem den_one_scale (q : ℚ) {k e : Nat} (hk : (q * (10 : ℚ) ^ k).den = 1)
    (hke : k ≤ e) : (q * (10 : ℚ) ^ e).den = 1 := by
  have h1 : q * (10 : ℚ) ^ e = q * 10 ^ k * (10 : ℚ) ^ (e - k) := by
    rw [mul_assoc, ← pow_add]
    congr 2
    omega
  have h2 : q * (10 : ℚ) ^ k = (((q * (10 : ℚ) ^ k).num : Int) : ℚ) :=
    ((Rat.den_eq_one_iff _).mp hk).symm
  rw [h1, h2]
  have h3 : (((q * (10 : ℚ) ^ k).num : Int) : ℚ) * (10 : ℚ) ^ (e - k)
      = (((q * (10 : ℚ) ^ k).num * 10 ^ (e - k) : Int) : ℚ) := by
    push_cast
    ring
  rw [h3, Rat.den_intCast]

theorem decExp_pos (q : ℚ) : 0 < decExp q := by
  unfold decExp
  split
  · exact Nat.lt_of_lt_of_le Nat.one_pos (le_max_left 1 _)
  · norm_num

theorem decExp_den (q : ℚ) (hq : (q * (10 : ℚ) ^ 1074).den = 1) :
    (q * (10 : ℚ) ^ decExp q).den = 1 := by
  cases hfind : (List.range 1075).find? (fun k => (q * (10 : ℚ) ^ k).den == 1) with
  | none =>
    exfalso
    rw [List.find?_eq_none] at hfind
    exact hfind 1074 (List.mem_range.mpr (by norm_num)) (by simpa using hq)
  | some k =>
    have hk : (q * (10 : ℚ) ^ k).den = 1 := by simpa using List.find?_some hfind
    have hde : decExp q = max 1 k := by
      unfold decExp
      rw [hfind]
    rw [hde]
    exact den_one_scale q hk (le_max_right 1 k)

theorem nat_div_mod_decimal (n D : Nat) (hD : 0 < D) :
    ((n / D : Nat) : ℚ) + ((n % D : Nat) : ℚ) / (D : ℚ) = (n : ℚ) / (D : ℚ) := by
  have hD' : (D : ℚ) ≠ 0 := Nat.cast_ne_zero.mpr (Nat.pos_iff_ne_zero.mp hD)
  rw [eq_div_iff hD', add_mul, div_mul_cancel₀ _ hD']
  have h2 : (D : ℚ) * ((n / D : Nat) : ℚ) + ((n % D : Nat) : ℚ) = (n : ℚ) := by
    exact_mod_cast Nat.div_add_mod n D
  linarith

theorem parseFloatChars_split (ip fp : List Char) (hip : ∀ c ∈ ip, c ≠ '.')
    (iv fv : Nat) (hiv : parseNatChars ip = some iv) (hfv : parseNatChars fp = some fv) :
    parseFloatChars (ip ++ '.' :: fp)
      = some ((iv : ℚ) + (fv : ℚ) / (10 : ℚ) ^ fp.length) := by
  rw [parseFloatChars, splitDot_append _ _ hip]
  show (match parseNatChars ip, parseNatChars fp with
    | some iv, some fv => some ((iv : ℚ) + (fv : ℚ) / (10 : ℚ) ^ fp.length)
    | _, _ => none) = _
  rw [hiv, hfv]

theorem parseFloat_mk_cons (c : Char) (cs : List Char) :
    parseFloat (String.mk (c :: cs)) =
      if c = '-' then (parseFloatChars cs).map (fun q => -q)
      else parseFloatChars (c :: cs) := rfl

theorem parseFloat_floatToString (q : ℚ) (hq : (q * (10 : ℚ) ^ 1074).den = 1) :
    parseFloat (floatToString q) = some q := by
  rw [floatToString]
  set e := decExp q with he
  have hepos : 0 < e := decExp_pos q
  have hden : (q * (10 : ℚ) ^ e).den = 1 := decExp_den q hq
  set m : Int := (q * (10 : ℚ) ^ e).num with hm
  have hmq : (m : ℚ) = q * (10 : ℚ) ^ e := (Rat.den_eq_one_iff _).mp hden
  set n : Nat := m.natAbs with hn
  have h10 : (0:Nat) < 10 ^ e := pow_pos (by norm_num) e
  have h10q : ((10 : ℚ)) ^ e ≠ 0 := pow_ne_zero e (by norm_num)
  have hlt : n % 10 ^ e < 10 ^ e := Nat.mod_lt _ h10
  have hipdig : ∀ c ∈ natChars (n / 10 ^ e), c.isDigit = true := natChars_all_digit _
  have hipdot : ∀ c ∈ natChars (n / 10 ^ e), c ≠ '.' := by
    intro c hcmem hcon
    have hd := hipdig c hcmem
    rw [hcon] at hd
    exact absurd hd (by decide)
  have hbody : parseFloatChars (natChars (n / 10 ^ e) ++ '.' :: padChars e (n % 10 ^ e))
      = some (((n / 10 ^ e : Nat) : ℚ) + ((n % 10 ^ e : Nat) : ℚ) / (10 : ℚ) ^ e) := by
    rw [parseFloatChars_split _ _ hipdot _ _ (parseNatChars_natChars _)
      (parseNatChars_padChars hlt hepos), padChars_length hlt hepos]
  have hval : ((n / 10 ^ e : Nat) : ℚ) + ((n % 10 ^ e : Nat) : ℚ) / (10 : ℚ) ^ e
      = (n : ℚ) / (10 : ℚ) ^ e := by
    have hgen := nat_div_mod_decimal n (10 ^ e) h10
    push_cast at hgen ⊢
    exact hgen
  by_cases hneg : q < 0
  · have hq0 : q * (10 : ℚ) ^ e < 0 :=
      mul_neg_of_neg_of_pos hneg (pow_pos (by norm_num) e)
    have hmneg : m < 0 := by
      by_contra hcon
      push_neg at hcon
      exact absurd (Rat.num_nonneg.mp hcon) (not_le.mpr hq0)
    rw [if_pos hneg]
    simp only [List.cons_append, List.nil_append]
    rw [parseFloat_mk_cons, if_pos rfl, hbody, Option.map_some']
    rw [hval]
    have hnq : ((n : Nat) : ℚ) = -(m : ℚ) := by
      rw [hn, Int.cast_natAbs]
      exact_mod_cast abs_of_neg hmneg
    rw [hnq, hmq, neg_div, neg_neg, mul_div_cancel_right₀ _ h10q]
  · have hq0 : (0:ℚ) ≤ q * (10 : ℚ) ^ e :=
      mul_nonneg (not_lt.mp hneg) (pow_nonneg (by norm_num) e)
    have hmpos : 0 ≤ m := Rat.num_nonneg.mpr hq0
    rw [if_neg hneg]
    simp only [List.nil_append]
    obtain ⟨c, cs, hc⟩ := List.exists_cons_of_ne_nil (natChars_ne_nil (n / 10 ^ e))
    have hcne : c ≠ '-' := by
      intro hcon
      have hd := hipdig c (by rw [hc]; exact List.mem_cons_self c cs)
      rw [hcon] at hd
      exact absurd hd (by decide)
    rw [hc, List.cons_append, parseFloat_mk_cons, if_neg hcne, ← List.cons_append, ← hc,
      hbody, hval]
    have hnq : ((n : Nat) : ℚ) = (m : ℚ) := by
      rw [hn, Int.cast_natAbs]
      exact_mod_cast abs_of_nonneg hmpos
    rw [hnq, hmq, mul_div_cancel_right₀ _ h10q]

/-- Mirror of the Python `ProxyInfo` dataclass (`app/utils/proxy_pool.py`).
Timestamps are abstract tick counts; `response_time` is the exact rational
value of the stored float. Field defaults are the dataclass defaults. -/
structure ProxyInfo where
  host : String
  port : Int
  protocol : String := "socks5"
  is_healthy : Bool := true
  last_check : Option Nat := none
  response_time : ℚ := 0
  error_count : Int := 0
  success_count : Int := 0
  last_used : Option Nat := none
deriving DecidableEq

/-- A stored Redis hash as read back by `hgetall`: optional string values for
the keys `to_dict` writes (a missing key is `none`). -/
structure StoredDict where
  host : Option String := none
  port : Option String := none
  protocol : Option String := none
  is_healthy : Option String := none
  last_check : Option String := none
  response_time : Option String := none
  error_count : Option String := none
  success_count : Option String := none
  last_used : Option String := none
deriving DecidableEq

/-- Mirror of `ProxyInfo.to_dict`: every value rendered as a string, the
boolean lower-cased, absent timestamps as the empty string. -/
def ProxyInfo.to_dict (p : ProxyInfo) : StoredDict :=
  { host := some p.host
    port := some (intToString p.port)
    protocol := some p.protocol
    is_healthy := some (boolToString p.is_healthy)
    last_check := some (match p.last_check with | none => "" | some t => natToString t)
    response_time := some (floatToString p.response_time)
    error_count := some (intToString p.error_count)
    success_count := some (intToString p.success_count)
    last_used := some (match p.last_used with | none => "" | some t => natToString t) }

/-- Mirror of `ProxyInfo.from_dict`: `host`/`port` are required, the other
fields default when missing (`socks5`, `true`, `0.0`, `0`, `0`, absent
timestamps); `none` models any conversion error raised for a malformed value
(the `MALFORMED_RECORD` failure). -/
def ProxyInfo.from_dict (d : StoredDict) : Option ProxyInfo := do
  let host ← d.host
  let portS ← d.port
  let port ← parseInt portS
  let response_time ← match d.response_time with
    | none => some (0 : ℚ)
    | some s => parseFloat s
  let error_count ← match d.error_count with
    | none => some (0 : Int)
    | some s => parseInt s
  let success_count ← match d.success_count with
    | none => some (0 : Int)
    | some s => parseInt s
  let last_check ← match d.last_check with
    | none => some none
    | some s => if s = "" then some none else (parseNat s).map some
  let last_used ← match d.last_used with
    | none => some none
    | some s => if s = "" then some none else (parseNat s).map some
  some { host := host
         port := port
         protocol := d.protocol.getD "socks5"
         is_healthy := decodeBool (d.is_healthy.getD "true")
         last_check := last_check
         response_time := response_time
         error_count := error_count
         success_count := success_count
         last_used := last_used }

theorem decodeBool_boolToString (b : Bool) : decodeBool (boolToString b) = b := by
  cases b <;> rfl

theorem from_dict_to_dict (p : ProxyInfo)
    (hrt : (p.response_time * (10 : ℚ) ^ 1074).den = 1) :
    ProxyInfo.from_dict (ProxyInfo.to_dict p) = some p := by
  obtain ⟨host, port, protocol, is_healthy, lc, rt, ec, sc, lu⟩ := p
  simp only [ProxyInfo.to_dict] at hrt ⊢
  cases lc <;> cases lu <;>
    simp [ProxyInfo.from_dict, parseInt_intToString, parseFloat_floatToString _ hrt,
      decodeBool_boolToString, parseNat_natToString, natToString_ne_empty]

/-- Key under which a proxy is stored: the f-string `host:port`. -/
def proxyKey (host : String) (port : Int) : String :=
  host ++ ":" ++ intToString port

/-- Key of a record, as recomputed by the report functions. -/
def ProxyInfo.key (p : ProxyInfo) : String := proxyKey p.host p.port

/-- Mutable pool state: the insertion-ordered `self.proxies` mapping and the
shared round-robin cursor `self.current_proxy_index`. -/
structure PoolState where
  proxies : List (String × ProxyInfo)
  current_proxy_index : Nat
deriving DecidableEq

/-- Mirror of `WARPProxyPool.get_healthy_proxies`: the healthy records, in
mapping iteration order. -/
def get_healthy_proxies (s : PoolState) : List ProxyInfo :=
  (s.proxies.map Prod.snd).filter (fun p => p.is_healthy)

/-- Replace the `i`-th healthy record of the mapping by `f` of it, leaving
everything else alone — the effect of mutating the `i`-th element of the
healthy snapshot, which aliases the record held in `self.proxies`. -/
def updateNthHealthy (f : ProxyInfo → ProxyInfo) :
    List (String × ProxyInfo) → Nat → List (String × ProxyInfo)
  | [], _ => []
  | (k, p) :: ps, i =>
    if p.is_healthy then
      match i with
      | 0 => (k, f p) :: ps
      | i + 1 => (k, p) :: updateNthHealthy f ps i
    else (k, p) :: updateNthHealthy f ps i

/-- Replace the `i`-th element of a list by `f` of it. -/
def modifyAt (f : ProxyInfo → ProxyInfo) : List ProxyInfo → Nat → List ProxyInfo
  | [], _ => []
  | p :: ps, 0 => f p :: ps
  | p :: ps, i + 1 => p :: modifyAt f ps i

/-- Mirror of `WARPProxyPool.get_next_proxy`: `None` when no healthy proxy,
otherwise the healthy record at `current_proxy_index % len(healthy)`, with the
cursor advanced by one and the chosen record's `last_used` set to `now`
(`datetime.now()`). -/
def get_next_proxy (now : Nat) (s : PoolState) : Option ProxyInfo × PoolState :=
  let hp := get_healthy_proxies s
  if h : hp.length = 0 then (none, s)
  else
    let i := s.current_proxy_index % hp.length
    let p := hp.get ⟨i, Nat.mod_lt _ (Nat.pos_of_ne_zero h)⟩
    (some { p with last_used := some now },
     { proxies := updateNthHealthy (fun q => { q with last_used := some now }) s.proxies i,
       current_proxy_index := s.current_proxy_index + 1 })

/-- The pool's `max_error_count` set in `__init__`. -/
def max_error_count : Int := 3

/-- Mirror of `WARPProxyPool.report_proxy_success`: returns the updated record
and the best-effort Redis write it issues; `now` is `datetime.now()`. -/
def report_proxy_success (p : ProxyInfo) (now : Nat) :
    ProxyInfo × (String × StoredDict) :=
  let p2 := { p with
    success_count := p.success_count + 1
    error_count := max 0 (p.error_count - 1)
    last_used := some now }
  (p2, (p2.key, p2.to_dict))

/-- Mirror of `WARPProxyPool.report_proxy_error` (`maxErr` is the pool's
`max_error_count`): returns the updated record and the Redis write. -/
def report_proxy_error (maxErr : Int) (p : ProxyInfo) :
    ProxyInfo × (String × StoredDict) :=
  let p1 := { p with error_count := p.error_count + 1 }
  let p2 := if p1.error_count ≥ maxErr then { p1 with is_healthy := false } else p1
  (p2, (p2.key, p2.to_dict))

/-- Iterated reporting: `n` successive `report_proxy_error` calls on the same
record. -/
def reportErrors (maxErr : Int) : Nat → ProxyInfo → ProxyInfo
  | 0, p => p
  | n + 1, p => (report_proxy_error maxErr (reportErrors maxErr n p)).1

/-- Outcome of one health probe through a proxy: HTTP 200 with an observed
latency, or any failure (non-200 status, timeout, connection error). -/
inductive ProbeOutcome where
  | success (response_time : ℚ)
  | failure
deriving DecidableEq

/-- Mirror of `WARPProxyPool._check_proxy_health` on one record: probe success
resets the health state entirely; failure bumps `error_count`, stamps
`last_check` and demotes at the threshold. Returns the updated record and the
Redis write issued at the end of the method. -/
def check_proxy_health (maxErr : Int) (p : ProxyInfo) (outcome : ProbeOutcome)
    (now : Nat) : ProxyInfo × (String × StoredDict) :=
  let p2 := match outcome with
    | .success rt =>
      { p with is_healthy := true, response_time := rt, last_check := some now,
               error_count := 0, success_count := p.success_count + 1 }
    | .failure =>
      let p1 := { p with error_count := p.error_count + 1, last_check := some now }
      if p1.error_count ≥ maxErr then { p1 with is_healthy := false } else p1
  (p2, (p2.key, p2.to_dict))

/-- One per-proxy entry of the `get_pool_status` report. -/
structure ProxyDetail where
  key : String
  is_healthy : Bool
  response_time : ℚ
  error_count : Int
  success_count : Int
  last_check : Option String
  last_used : Option String
deriving DecidableEq

/-- The `get_pool_status` report. -/
structure PoolStatus where
  total_proxies : Nat
  healthy_proxies : Nat
  unhealthy_proxies : Nat
  health_rate : ℚ
  proxies : List ProxyDetail
deriving DecidableEq

/-- Mirror of `WARPProxyPool.get_pool_status`. -/
def get_pool_status (s : PoolState) : PoolStatus :=
  let healthy_count := (get_healthy_proxies s).length
  let total_count := s.proxies.length
  { total_proxies := total_count
    healthy_proxies := healthy_count
    unhealthy_proxies := total_count - healthy_count
    health_rate := if total_count > 0 then (healthy_count : ℚ) / (total_count : ℚ) else 0
    proxies := s.proxies.map (fun kp =>
      { key := kp.1
        is_healthy := kp.2.is_healthy
        response_time := kp.2.response_time
        error_count := kp.2.error_count
        success_count := kp.2.success_count
        last_check := kp.2.last_check.map natToString
        last_used := kp.2.last_used.map natToString }) }

/-- Python truthiness of the `hgetall` result (`if proxy_data:`). -/
def StoredDict.isEmptyDict (d : StoredDict) : Bool :=
  d.host.isNone && d.port.isNone && d.protocol.isNone && d.is_healthy.isNone &&
  d.last_check.isNone && d.response_time.isNone && d.error_count.isNone &&
  d.success_count.isNone && d.last_used.isNone

/-- The `for key in keys` loop body of `_load_proxies_from_redis`; `none`
models an exception escaping the loop (e.g. `from_dict` raising). -/
def loadLoop : List (String × StoredDict) → Option (List (String × ProxyInfo))
  | [] => some []
  | (k, d) :: rest =>
    if d.isEmptyDict then loadLoop rest
    else
      match ProxyInfo.from_dict d with
      | some p => (loadLoop rest).map (fun m => (k, p) :: m)
      | none => none

/-- Mirror of `_load_proxies_from_redis`: the whole loop runs inside a single
`try`, so any record that fails to deserialize abandons the pass and the
method returns the empty mapping. -/
def load_proxies_from_redis (entries : List (String × StoredDict)) :
    List (String × ProxyInfo) :=
  (loadLoop entries).getD []

/-- Mirror of `_initialize_proxies`: one entry per configured default proxy,
restored from the loaded state when present, otherwise created fresh. -/
def initialize_proxies (saved : List (String × ProxyInfo))
    (defaults : List (String × Int)) : List (String × ProxyInfo) :=
  defaults.map (fun cfg =>
    match saved.lookup (proxyKey cfg.1 cfg.2) with
    | some p => (proxyKey cfg.1 cfg.2, p)
    | none => (proxyKey cfg.1 cfg.2, { host := cfg.1, port := cfg.2 }))

/-- The five default WARP proxies configured in `__init__`. -/
def default_proxies : List (String × Int) :=
  [("localhost", 40001), ("localhost", 40002), ("localhost", 40003),
   ("localhost", 40004), ("localhost", 40005)]

/-- Mirror of the `RateLimiter` state (times in rational seconds). -/
structure RateLimiter where
  calls_per_second : ℚ
  min_interval : ℚ
  last_call_time : ℚ
deriving DecidableEq

/-- Mirror of `RateLimiter.__init__(calls_per_second)`. -/
def RateLimiter.init (cps : ℚ) : RateLimiter :=
  { calls_per_second := cps, min_interval := 1 / cps, last_call_time := 0 }

/-- Mirror of `RateLimiter.wait_if_needed` under an idealized clock: `now` is
`time.time()` at entry; sleeping `w` seconds makes the post-sleep
`time.time()` read `now + w`. Returns the instant at which the call returns
and the new state (`last_call_time` is written only after the wait). -/
def wait_if_needed (rl : RateLimiter) (now : ℚ) : ℚ × RateLimiter :=
  let elapsed := now - rl.last_call_time
  let ret := if elapsed < rl.min_interval then now + (rl.min_interval - elapsed) else now
  (ret, { rl with last_call_time := ret })

/-- Result of one attempt of an operation wrapped by `retry_with_proxy`. -/
inductive AttemptResult (α : Type) where
  | ok (value : α)
  | err (msg : String)

/-- Whether the first list starts with the second. -/
def listStartsWith : List Char → List Char → Bool
  | _, [] => true
  | [], _ :: _ => false
  | c :: cs, d :: ds => c == d && listStartsWith cs ds

/-- Whether the second list occurs as a contiguous sublist of the first. -/
def listContainsSub : List Char → List Char → Bool
  | [], pat => pat.isEmpty
  | c :: cs, pat => listStartsWith (c :: cs) pat || listContainsSub cs pat

/-- Python's `pat in s` substring test. -/
def strContains (s pat : String) : Bool := listContainsSub s.data pat.data

/-- The retry classifier of `retry_with_proxy`: `"429" in str(e) or "timeout"
in str(e).lower() or "connection" in str(e).lower()`. -/
def isRetryableMsg (msg : String) : Bool :=
  strContains msg "429" || strContains (strLower msg) "timeout" ||
  strContains (strLower msg) "connection"

/-- One backoff wait: `backoff_factor * 2 ** (attempt - 1) +
random.uniform(0, 1)` slept before retry number `attempt` (`jit attempt` is
the sampled jitter). -/
def backoffSleep (bf : ℚ) (jit : Nat → ℚ) (attempt : Nat) : ℚ :=
  bf * 2 ^ (attempt - 1) + jit attempt

/-- The `for attempt in range(max_retries + 1)` loop of `retry_with_proxy`:
sleep when `attempt > 0`, run the attempt, retry only while attempts remain
and the error message is retryable, otherwise re-raise. `remaining` counts the
iterations still available after this one. Returns the outcome and the list
of sleeps performed, in order. -/
def retryGo {α : Type} (f : Nat → AttemptResult α) (maxR : Nat) (bf : ℚ)
    (jit : Nat → ℚ) : Nat → Nat → Except String α × List ℚ
  | attempt, remaining =>
    let sleeps := if attempt > 0 then [backoffSleep bf jit attempt] else []
    match f attempt with
    | .ok a => (Except.ok a, sleeps)
    | .err e =>
      if attempt < maxR ∧ isRetryableMsg e = true then
        match remaining with
        | 0 => (Except.error e, sleeps)
        | r + 1 =>
          let rest := retryGo f maxR bf jit (attempt + 1) r
          (rest.1, sleeps ++ rest.2)
      else (Except.error e, sleeps)

/-- Mirror of a function wrapped by `retry_with_proxy(max_retries,
backoff_factor)`: attempt `k` of the operation yields `f k`, `jit` samples
`random.uniform(0, 1)`. Returns the final outcome (`Except.error` models the
re-raised last exception) and the backoff sleeps performed. -/
def retry_with_proxy {α : Type} (f : Nat → AttemptResult α) (maxR : Nat)
    (bf : ℚ) (jit : Nat → ℚ) : Except String α × List ℚ :=
  retryGo f maxR bf jit 0 maxR

/-- Control outcome of one iteration of the `while True` health-checker loop
body. `exitLoop` would model an exception escaping the iteration. -/
inductive LoopStep where
  | continueAfter (delaySeconds : Nat)
  | exitLoop
deriving DecidableEq

/-- Mirror of the body of `health_check_worker`: a completed probe pass sleeps
`health_check_interval` (60 s); a pass that raised is caught, logged, and
sleeps the 10-second fallback. No branch leaves the loop. -/
def health_check_iteration (passRaised : Bool) : LoopStep :=
  if passRaised then .continueAfter 10 else .continueAfter 60

/-- Whether the health-checker loop is still running after `n` iterations,
given which probe passes raised. -/
def loopAlive (outcomes : Nat → Bool) : Nat → Bool
  | 0 => true
  | n + 1 =>
    loopAlive outcomes n &&
      match health_check_iteration (outcomes n) with
      | .continueAfter _ => true
      | .exitLoop => false

/-- Iterated selection: `n` successive sequential `get_next_proxy` calls,
giving the returned values in order and the final pool state. -/
def runNext (now : Nat) : Nat → PoolState → List (Option ProxyInfo) × PoolState
  | 0, s => ([], s)
  | n + 1, s =>
    let step := get_next_proxy now s
    let rest := runNext now n step.2
    (step.1 :: rest.1, rest.2)

/-- Keys of the healthy records, in iteration order. -/
def hkeys (s : PoolState) : List String := (get_healthy_proxies s).map ProxyInfo.key

theorem get_healthy_update (f : ProxyInfo → ProxyInfo)
    (hf : ∀ p, (f p).is_healthy = p.is_healthy) :
    ∀ (l : List (String × ProxyInfo)) (i : Nat),
      ((updateNthHealthy f l i).map Prod.snd).filter (fun p => p.is_healthy)
        = modifyAt f ((l.map Prod.snd).filter (fun p => p.is_healthy)) i := by
  intro l
  induction l with
  | nil => intro i; rfl
  | cons kp ps ih =>
    intro i
    obtain ⟨k, p⟩ := kp
    cases hp : p.is_healthy with
    | true =>
      cases i with
      | zero => simp [updateNthHealthy, hp, List.filter_cons, hf p, modifyAt]
      | succ i => simp [updateNthHealthy, hp, List.filter_cons, modifyAt, ih i]
    | false => simp [updateNthHealthy, hp, List.filter_cons, ih i]

theorem map_modifyAt {α : Type} (g : ProxyInfo → α) (f : ProxyInfo → ProxyInfo)
    (hgf : ∀ p, g (f p) = g p) :
    ∀ (l : List ProxyInfo) (i : Nat), (modifyAt f l i).map g = l.map g := by
  intro l
  induction l with
  | nil => intro i; rfl
  | cons p ps ih =>
    intro i
    cases i with
    | zero => simp [modifyAt, hgf p]
    | succ i => simp [modifyAt, ih i]

theorem get_next_proxy_some (now : Nat) (s : PoolState)
    (h : (get_healthy_proxies s).length ≠ 0) :
    get_next_proxy now s =
      (some { (get_healthy_proxies s).get
          ⟨s.current_proxy_index % (get_healthy_proxies s).length,
           Nat.mod_lt _ (Nat.pos_of_ne_zero h)⟩ with last_used := some now },
       { proxies := updateNthHealthy (fun q => { q with last_used := some now })
           s.proxies (s.current_proxy_index % (get_healthy_proxies s).length),
         current_proxy_index := s.current_proxy_index + 1 }) := by
  rw [get_next_proxy, dif_neg h]

theorem hkeys_next (now : Nat) (s : PoolState)
    (h : (get_healthy_proxies s).length ≠ 0) :
    hkeys (get_next_proxy now s).2 = hkeys s := by
  rw [get_next_proxy_some now s h]
  show hkeys
    { proxies := updateNthHealthy (fun q => { q with last_used := some now }) s.proxies
        (s.current_proxy_index % (get_healthy_proxies s).length),
      current_proxy_index := s.current_proxy_index + 1 } = hkeys s
  rw [hkeys, hkeys, get_healthy_proxies]
  rw [get_healthy_update (fun q => { q with last_used := some now }) (fun p => rfl)]
  exact map_modifyAt ProxyInfo.key (fun q => { q with last_used := some now })
    (fun p => rfl) _ _

theorem cursor_next (now : Nat) (s : PoolState)
    (h : (get_healthy_proxies s).length ≠ 0) :
    (get_next_proxy now s).2.current_proxy_index = s.current_proxy_index + 1 := by
  rw [get_next_proxy_some now s h]

theorem returned_key (now : Nat) (s : PoolState)
    (h : (get_healthy_proxies s).length ≠ 0) :
    (get_next_proxy now s).1.map ProxyInfo.key
      = some ((hkeys s).getD
          (s.current_proxy_index % (get_healthy_proxies s).length) "default") := by
  rw [get_next_proxy_some now s h, Option.map_some']
  congr 1
  have hi : s.current_proxy_index % (get_healthy_proxies s).length
      < (List.map ProxyInfo.key (get_healthy_proxies s)).length := by
    rw [List.length_map]
    exact Nat.mod_lt _ (Nat.pos_of_ne_zero h)
  simp only [hkeys]
  rw [List.getD_eq_getElem _ _ hi, List.getElem_map, List.get_eq_getElem]
  rfl

theorem healthy_len_next (now : Nat) (s : PoolState)
    (h : (get_healthy_proxies s).length ≠ 0) :
    (get_healthy_proxies (get_next_proxy now s).2).length
      = (get_healthy_proxies s).length := by
  have hcon := congrArg List.length (hkeys_next now s h)
  rw [hkeys, hkeys, List.length_map, List.length_map] at hcon
  exact hcon

theorem runNext_keys (now : Nat) :
    ∀ (N : Nat) (s : PoolState), (get_healthy_proxies s).length ≠ 0 →
      (runNext now N s).1.map (fun r => r.map ProxyInfo.key)
        = (List.range N).map (fun t =>
            some ((hkeys s).getD
              ((s.current_proxy_index + t) % (get_healthy_proxies s).length)
              "default")) := by
  intro N
  induction N with
  | zero => intro s h; rfl
  | succ N ih =>
    intro s h
    have h2 : (get_healthy_proxies (get_next_proxy now s).2).length ≠ 0 := by
      rw [healthy_len_next now s h]
      exact h
    rw [runNext]
    show (get_next_proxy now s).1.map ProxyInfo.key ::
        (runNext now N (get_next_proxy now s).2).1.map (fun r => r.map ProxyInfo.key) = _
    rw [ih (get_next_proxy now s).2 h2, returned_key now s h,
      hkeys_next now s h, healthy_len_next now s h,
      cursor_next now s h, List.range_succ_eq_map, List.map_cons, List.map_map]
    congr 1
    apply List.map_congr_left
    intro t ht
    show some ((hkeys s).getD
        ((s.current_proxy_index + 1 + t) % (get_healthy_proxies s).length) "default")
      = some ((hkeys s).getD
        ((s.current_proxy_index + Nat.succ t) % (get_healthy_proxies s).length) "default")
    have harg : s.current_proxy_index + 1 + t = s.current_proxy_index + Nat.succ t := by
      omega
    rw [harg]

theorem countP_period (c j : Nat) (hc : 0 < c) (hj : j < c) (a : Nat) :
    ((List.range c).countP fun t => (a + t) % c == j) = 1 := by
  have hinj : ∀ x ∈ List.range c, ∀ y ∈ List.range c,
      (a + x) % c = (a + y) % c → x = y := by
    intro x hx y hy hxy
    rw [List.mem_range] at hx hy
    have hm : x % c = y % c := Nat.ModEq.add_left_cancel' a hxy
    rwa [Nat.mod_eq_of_lt hx, Nat.mod_eq_of_lt hy] at hm
  have hnodup : ((List.range c).map fun t => (a + t) % c).Nodup :=
    List.Nodup.map_on hinj (List.nodup_range c)
  have hsub : ((List.range c).map fun t => (a + t) % c) ⊆ List.range c := by
    intro x hx
    rw [List.mem_map] at hx
    obtain ⟨t, _, rfl⟩ := hx
    exact List.mem_range.mpr (Nat.mod_lt _ hc)
  have hperm : ((List.range c).map fun t => (a + t) % c).Perm (List.range c) :=
    (List.subperm_of_subset hnodup hsub).perm_of_length_le (by simp)
  have hcr : (List.range c).count j = 1 := by
    have h1 : (List.range c).count j ≤ 1 :=
      List.nodup_iff_count_le_one.mp (List.nodup_range c) j
    have h2 : 0 < (List.range c).count j :=
      List.count_pos_iff.mpr (List.mem_range.mpr hj)
    omega
  calc ((List.range c).countP fun t => (a + t) % c == j)
      = (List.range c).countP ((fun x => x == j) ∘ fun t => (a + t) % c) := rfl
    _ = ((List.range c).map fun t => (a + t) % c).countP (fun x => x == j) :=
        (List.countP_map _ _ _).symm
    _ = ((List.range c).map fun t => (a + t) % c).count j :=
        (List.count_eq_countP _ _).symm
    _ = (List.range c).count j := hperm.count_eq j
    _ = 1 := hcr

theorem countP_mod (c j : Nat) (hc : 0 < c) (hj : j < c) :
    ∀ (m a : Nat), ((List.range (m * c)).countP fun t => (a + t) % c == j) = m := by
  intro m
  induction m with
  | zero => intro a; simp
  | succ m ih =>
    intro a
    have hsplit : (m + 1) * c = c + m * c := by ring
    rw [hsplit, List.range_add, List.countP_append, countP_period c j hc hj a,
      List.countP_map]
    have hcongr : ((List.range (m * c)).countP
        ((fun t => (a + t) % c == j) ∘ fun x => c + x))
        = ((List.range (m * c)).countP fun t => (a + c + t) % c == j) := by
      apply List.countP_congr
      intro x hx
      show ((a + (c + x)) % c == j) = true ↔ ((a + c + x) % c == j) = true
      rw [Nat.add_assoc]
    rw [hcongr, ih (a + c)]
    omega

theorem report_error_step (maxErr : Int) (p : ProxyInfo) :
    (report_proxy_error maxErr p).1.error_count = p.error_count + 1
    ∧ (report_proxy_error maxErr p).1.is_healthy
        = (if maxErr ≤ p.error_count + 1 then false else p.is_healthy)
    ∧ (report_proxy_error maxErr p).1.host = p.host
    ∧ (report_proxy_error maxErr p).1.port = p.port
    ∧ (report_proxy_error maxErr p).1.protocol = p.protocol
    ∧ (report_proxy_error maxErr p).1.success_count = p.success_count
    ∧ (report_proxy_error maxErr p).1.response_time = p.response_time
    ∧ (report_proxy_error maxErr p).1.last_check = p.last_check
    ∧ (report_proxy_error maxErr p).1.last_used = p.last_used := by
  by_cases h : maxErr ≤ p.error_count + 1 <;>
    simp [report_proxy_error, ge_iff_le, h]

theorem reportErrors_fields (maxErr : Int) :
    ∀ (n : Nat) (p : ProxyInfo),
      (reportErrors maxErr n p).error_count = p.error_count + n
      ∧ (reportErrors maxErr n p).host = p.host
      ∧ (reportErrors maxErr n p).port = p.port
      ∧ (reportErrors maxErr n p).protocol = p.protocol
      ∧ (reportErrors maxErr n p).success_count = p.success_count
      ∧ (reportErrors maxErr n p).response_time = p.response_time
      ∧ (reportErrors maxErr n p).last_check = p.last_check
      ∧ (reportErrors maxErr n p).last_used = p.last_used := by
  intro n
  induction n with
  | zero =>
    intro p
    refine ⟨?_, rfl, rfl, rfl, rfl, rfl, rfl, rfl⟩
    simp [reportErrors]
  | succ n ih =>
    intro p
    obtain ⟨hec, hh, hpo, hpr, hsc, hrt, hlc, hlu⟩ := ih p
    obtain ⟨sec, shl, sho, spo, spr, ssc, srt, slc, slu⟩ :=
      report_error_step maxErr (reportErrors maxErr n p)
    rw [reportErrors]
    refine ⟨?_, by rw [sho, hh], by rw [spo, hpo], by rw [spr, hpr],
      by rw [ssc, hsc], by rw [srt, hrt], by rw [slc, hlc], by rw [slu, hlu]⟩
    rw [sec, hec]
    push_cast
    ring

theorem reportErrors_unhealthy (maxErr : Int) (p : ProxyInfo) (n : Nat)
    (hn : 0 < n) (hth : maxErr ≤ p.error_count + n) :
    (reportErrors maxErr n p).is_healthy = false := by
  obtain ⟨k, rfl⟩ : ∃ k, n = k + 1 := ⟨n - 1, by omega⟩
  rw [reportErrors]
  obtain ⟨hec, _⟩ := reportErrors_fields maxErr k p
  obtain ⟨_, sh, _⟩ := report_error_step maxErr (reportErrors maxErr k p)
  rw [sh, hec, if_pos]
  push_cast at hth ⊢
  linarith

theorem loadLoop_none (k : String) (d : StoredDict)
    (hne : d.isEmptyDict = false) (hfd : ProxyInfo.from_dict d = none) :
    ∀ entries : List (String × StoredDict), (k, d) ∈ entries →
      loadLoop entries = none := by
  intro entries
  induction entries with
  | nil => intro hmem; cases hmem
  | cons kd rest ih =>
    intro hmem
    obtain ⟨k2, d2⟩ := kd
    rcases List.mem_cons.mp hmem with heq | hmem2
    · rw [Prod.mk.injEq] at heq
      obtain ⟨hk, hd⟩ := heq
      subst hd
      simp [loadLoop, hne, hfd]
    · cases hemp : d2.isEmptyDict <;> cases hfd2 : ProxyInfo.from_dict d2 <;>
        simp [loadLoop, hemp, hfd2, ih hmem2]

theorem retryGo_terminal {α : Type} (f : Nat → AttemptResult α) (maxR : Nat)
    (bf : ℚ) (jit : Nat → ℚ) (K r : Nat)
    (hterm : (∃ v, f K = AttemptResult.ok v)
      ∨ (∃ e, f K = AttemptResult.err e ∧ (isRetryableMsg e = false ∨ K = maxR))) :
    retryGo f maxR bf jit K r
      = ((match f K with
          | AttemptResult.ok v => Except.ok v
          | AttemptResult.err e => Except.error e),
         if K = 0 then [] else [backoffSleep bf jit K]) := by
  rcases hterm with ⟨v, hfK⟩ | ⟨e, hfK, hcase⟩
  · rw [retryGo, hfK]
    dsimp only
    by_cases hK0 : K = 0
    · simp [hK0]
    · simp [hK0, Nat.pos_of_ne_zero hK0]
  · have hcond : ¬ (K < maxR ∧ isRetryableMsg e = true) := by
      rcases hcase with hf | hKm
      · rintro ⟨_, hr2⟩
        rw [hf] at hr2
        cases hr2
      · rintro ⟨hlt, _⟩
        omega
    rw [retryGo, hfK]
    dsimp only
    rw [if_neg hcond]
    by_cases hK0 : K = 0
    · simp [hK0]
    · simp [hK0, Nat.pos_of_ne_zero hK0]

theorem retryGo_run {α : Type} (f : Nat → AttemptResult α) (maxR : Nat) (bf : ℚ)
    (jit : Nat → ℚ) (K : Nat) (hK : K ≤ maxR)
    (hfail : ∀ j, j < K → ∃ e, f j = AttemptResult.err e ∧ isRetryableMsg e = true)
    (hterm : (∃ v, f K = AttemptResult.ok v)
      ∨ (∃ e, f K = AttemptResult.err e ∧ (isRetryableMsg e = false ∨ K = maxR))) :
    ∀ (r a : Nat), a + r = maxR → a ≤ K →
      retryGo f maxR bf jit a r
        = ((match f K with
            | AttemptResult.ok v => Except.ok v
            | AttemptResult.err e => Except.error e),
           (if a = 0 then [] else [backoffSleep bf jit a])
             ++ (List.range' (a + 1) (K - a)).map (backoffSleep bf jit)) := by
  intro r
  induction r with
  | zero =>
    intro a har haK
    have haK2 : a = K := by omega
    subst haK2
    rw [Nat.sub_self, show List.range' (a + 1) 0 = [] from rfl,
      List.map_nil, List.append_nil]
    exact retryGo_terminal f maxR bf jit a 0 hterm
  | succ r ih =>
    intro a har haK
    by_cases haK2 : a = K
    · subst haK2
      rw [Nat.sub_self, show List.range' (a + 1) 0 = [] from rfl,
        List.map_nil, List.append_nil]
      exact retryGo_terminal f maxR bf jit a (r + 1) hterm
    · have haltK : a < K := by omega
      obtain ⟨e, hfa, hre⟩ := hfail a haltK
      have hcondT : a < maxR ∧ isRetryableMsg e = true := ⟨by omega, hre⟩
      rw [retryGo, hfa]
      dsimp only
      rw [if_pos hcondT, ih (a + 1) (by omega) (by omega)]
      have hsplit : K - a = (K - (a + 1)) + 1 := by omega
      rw [hsplit, List.range'_succ]
      by_cases hK0 : a = 0
      · simp [hK0]
      · simp [hK0, Nat.pos_of_ne_zero hK0]

/-- C1 counterexample: with the pool's threshold `max_error_count = 3`, a
record demoted by three `report_proxy_error` calls is NOT healed by the next
`report_proxy_success`: the success leaves `is_healthy` false and only
decrements `error_count` from 3 to 2, refuting the claim that a
`report_proxy_success`-driven check "sets `is_healthy` back to true and
resets `error_count` to 0". -/
theorem c1_reported_success_does_not_reset :
    (reportErrors max_error_count 3 { host := "localhost", port := 40001 }).is_healthy
        = false
    ∧ (report_proxy_success
        (reportErrors max_error_count 3 { host := "localhost", port := 40001 })
          5).1.is_healthy = false
    ∧ (report_proxy_success
        (reportErrors max_error_count 3 { host := "localhost", port := 40001 })
          5).1.error_count = 2 :=
  ⟨rfl, rfl, rfl⟩

/-- C1 (amended): once `error_count` reaches `max_error_count` through
repeated `report_proxy_error` calls, `is_healthy` is false; the very next
successful health probe sets `is_healthy` back to true and resets
`error_count` to 0; a `report_proxy_success`, by contrast, leaves
`is_healthy` unchanged — still false — and only decrements `error_count` by
one, floored at 0. -/
theorem c1_threshold_and_recovery (maxErr : Int) (p : ProxyInfo) (n : Nat)
    (rt : ℚ) (now now2 : Nat)
    (hn : 0 < n) (hth : maxErr ≤ p.error_count + n) :
    (reportErrors maxErr n p).is_healthy = false
    ∧ (check_proxy_health maxErr (reportErrors maxErr n p)
        (ProbeOutcome.success rt) now).1.is_healthy = true
    ∧ (check_proxy_health maxErr (reportErrors maxErr n p)
        (ProbeOutcome.success rt) now).1.error_count = 0
    ∧ (report_proxy_success (reportErrors maxErr n p) now2).1.is_healthy
        = (reportErrors maxErr n p).is_healthy
    ∧ (report_proxy_success (reportErrors maxErr n p) now2).1.is_healthy = false
    ∧ (report_proxy_success (reportErrors maxErr n p) now2).1.error_count
        = max 0 ((reportErrors maxErr n p).error_count - 1) := by
  have hu := reportErrors_unhealthy maxErr p n hn hth
  refine ⟨hu, rfl, rfl, rfl, ?_, rfl⟩
  show (reportErrors maxErr n p).is_healthy = false
  exact hu

/-- Witness for the amended C1 at the pool's configuration: threshold 3, a
fresh record, three reported errors. -/
theorem c1_threshold_and_recovery_witness :
    ((0:Nat) < 3
      ∧ max_error_count
          ≤ ({ host := "localhost", port := 40001 } : ProxyInfo).error_count + (3:Nat))
    ∧ (reportErrors max_error_count 3
        { host := "localhost", port := 40001 }).is_healthy = false
    ∧ (check_proxy_health max_error_count
        (reportErrors max_error_count 3 { host := "localhost", port := 40001 })
        (ProbeOutcome.success 1) 6).1.is_healthy = true
    ∧ (check_proxy_health max_error_count
        (reportErrors max_error_count 3 { host := "localhost", port := 40001 })
        (ProbeOutcome.success 1) 6).1.error_count = 0
    ∧ (report_proxy_success
        (reportErrors max_error_count 3 { host := "localhost", port := 40001 })
          7).1.is_healthy
        = (reportErrors max_error_count 3
            { host := "localhost", port := 40001 }).is_healthy
    ∧ (report_proxy_success
        (reportErrors max_error_count 3 { host := "localhost", port := 40001 })
          7).1.is_healthy = false
    ∧ (report_proxy_success
        (reportErrors max_error_count 3 { host := "localhost", port := 40001 })
          7).1.error_count
        = max 0 ((reportErrors max_error_count 3
            { host := "localhost", port := 40001 }).error_count - 1) := by
  obtain ⟨h1, h2, h3, h4, h5, h6⟩ :=
    c1_threshold_and_recovery max_error_count
      { host := "localhost", port := 40001 } 3 1 6 7 (by decide) (by decide)
  exact ⟨⟨by decide, by decide⟩, h1, h2, h3, h4, h5, h6⟩

/-- C2: `report_proxy_success` increments `success_count` by exactly one,
sets `error_count` to `max(0, error_count - 1)` — never below 0 — stamps
`last_used` with the current time, and persists the updated record under its
`host:port` key; it changes nothing else: `is_healthy`, `response_time` and
`last_check` are untouched (only a successful probe fully resets). -/
theorem c2_report_proxy_success_spec (p : ProxyInfo) (now : Nat) :
    (report_proxy_success p now).1.success_count = p.success_count + 1
    ∧ (report_proxy_success p now).1.error_count = max 0 (p.error_count - 1)
    ∧ 0 ≤ (report_proxy_success p now).1.error_count
    ∧ (report_proxy_success p now).1.last_used = some now
    ∧ (report_proxy_success p now).1.is_healthy = p.is_healthy
    ∧ (report_proxy_success p now).1.response_time = p.response_time
    ∧ (report_proxy_success p now).1.last_check = p.last_check
    ∧ (report_proxy_success p now).1.host = p.host
    ∧ (report_proxy_success p now).1.port = p.port
    ∧ (report_proxy_success p now).1.protocol = p.protocol
    ∧ (report_proxy_success p now).2
        = ((report_proxy_success p now).1.key,
           (report_proxy_success p now).1.to_dict) :=
  ⟨rfl, rfl, le_max_left 0 _, rfl, rfl, rfl, rfl, rfl, rfl, rfl, rfl⟩

/-- C3: if the healthy set is non-empty and no proxy changes health state
during the calls (the calls themselves only touch `last_used` and the
cursor), then `N = m * c` sequential `get_next_proxy` calls, `c` the
healthy-proxy count, return each healthy proxy exactly `m = N / c` times:
the shared cursor advances by one per call and is taken modulo the current
healthy-set size. -/
theorem c3_round_robin_fairness (now : Nat) (s : PoolState) (m c : Nat)
    (hc : (get_healthy_proxies s).length = c) (hpos : 0 < c)
    (hnodup : (hkeys s).Nodup)
    (p : ProxyInfo) (hp : p ∈ get_healthy_proxies s) :
    ((runNext now (m * c) s).1.map (fun r => r.map ProxyInfo.key)).count
      (some p.key) = m := by
  have hne : (get_healthy_proxies s).length ≠ 0 := by omega
  have hLlen : (hkeys s).length = c := by rw [hkeys, List.length_map, hc]
  rw [runNext_keys now (m * c) s hne, hc]
  rw [List.count_eq_countP, List.countP_map]
  have hkmem : p.key ∈ hkeys s := List.mem_map.mpr ⟨p, hp, rfl⟩
  obtain ⟨jf, hjf⟩ := List.mem_iff_get.mp hkmem
  have hjlt : jf.val < c := by
    have hlt := jf.isLt
    omega
  have hcongr2 : ∀ t ∈ List.range (m * c),
      (((fun x => x == some p.key) ∘ fun t =>
          some ((hkeys s).getD ((s.current_proxy_index + t) % c) "default")) t = true)
        ↔ (((s.current_proxy_index + t) % c == jf.val) = true) := by
    intro t ht
    have hi : (s.current_proxy_index + t) % c < (hkeys s).length := by
      rw [hLlen]
      exact Nat.mod_lt _ hpos
    show ((some ((hkeys s).getD ((s.current_proxy_index + t) % c) "default")
        == some p.key) = true) ↔ _
    simp only [beq_iff_eq, Option.some.injEq]
    rw [List.getD_eq_getElem _ _ hi]
    show ((hkeys s).get ⟨(s.current_proxy_index + t) % c, hi⟩ = p.key)
      ↔ (s.current_proxy_index + t) % c = jf.val
    rw [← hjf, hnodup.get_inj_iff, Fin.ext_iff]
  rw [List.countP_congr hcongr2,
    countP_mod c jf.val hpos hjlt m s.current_proxy_index]

/-- A two-proxy pool for exercising the round-robin theorem. -/
def c3pool : PoolState :=
  { proxies := [("h:1", { host := "h", port := 1 }), ("h:2", { host := "h", port := 2 })],
    current_proxy_index := 0 }

/-- The first proxy of `c3pool`. -/
def c3proxy : ProxyInfo := { host := "h", port := 1 }

/-- Witness for C3: two healthy proxies, four calls, each returned twice. -/
theorem c3_round_robin_fairness_witness :
    ((get_healthy_proxies c3pool).length = 2 ∧ (0:Nat) < 2
      ∧ (hkeys c3pool).Nodup ∧ c3proxy ∈ get_healthy_proxies c3pool)
    ∧ ((runNext 7 (2 * 2) c3pool).1.map (fun r => r.map ProxyInfo.key)).count
        (some c3proxy.key) = 2 := by
  have hmem : c3proxy ∈ get_healthy_proxies c3pool := by
    show c3proxy ∈ [c3proxy, { host := "h", port := 2 }]
    exact List.mem_cons_self _ _
  exact ⟨⟨rfl, by decide, by decide, hmem⟩,
    c3_round_robin_fairness 7 c3pool 2 2 rfl (by decide) (by decide) c3proxy hmem⟩

/-- C4 counterexample: one malformed stored record (port `"4x"`) aborts the
whole load pass — `_load_proxies_from_redis` catches the error outside the
loop and returns the empty mapping, so the other, well-formed stored record
is also discarded; this refutes "only that single record is skipped ... does
not affect the loading of the other stored records". -/
theorem c4_malformed_record_not_isolated :
    ProxyInfo.from_dict { host := some "localhost", port := some "4x" } = none
    ∧ ProxyInfo.from_dict { host := some "localhost", port := some "40001" }
        = some { host := "localhost", port := 40001 }
    ∧ load_proxies_from_redis
        [("localhost:40001", { host := some "localhost", port := some "40001" }),
         ("localhost:40002", { host := some "localhost", port := some "4x" })] = []
    ∧ (load_proxies_from_redis
        [("localhost:40001", { host := some "localhost", port := some "40001" }),
         ("localhost:40002", { host := some "localhost", port := some "4x" })]).lookup
        "localhost:40001" = none :=
  ⟨rfl, rfl, rfl, rfl⟩

/-- C4 (amended): deserializing a stored record whose port value is malformed
fails (`from_dict` yields `none` — the `MALFORMED_RECORD` case), and a
malformed record is never fatal to pool startup: `_initialize_proxies` still
creates every configured proxy. The failure is, however, not isolated to the
single record: the whole load pass is abandoned and all stored records are
discarded, so every configured proxy is recreated fresh. -/
theorem c4_malformed_record_spec (d : StoredDict) (h s : String)
    (entries : List (String × StoredDict)) (k : String)
    (saved : List (String × ProxyInfo)) (defaults : List (String × Int))
    (hhost : d.host = some h) (hport : d.port = some s)
    (hbad : parseInt s = none) (hne : d.isEmptyDict = false)
    (hmem : (k, d) ∈ entries) :
    ProxyInfo.from_dict d = none
    ∧ load_proxies_from_redis entries = []
    ∧ (initialize_proxies saved defaults).length = defaults.length := by
  have hfd : ProxyInfo.from_dict d = none := by
    simp [ProxyInfo.from_dict, hhost, hport, hbad]
  refine ⟨hfd, ?_, ?_⟩
  · rw [load_proxies_from_redis, loadLoop_none k d hne hfd entries hmem]
    rfl
  · simp [initialize_proxies]

/-- Witness for the amended C4: a one-record store holding a record with the
malformed port `"4x"`. -/
theorem c4_malformed_record_spec_witness :
    ((({ host := some "localhost", port := some "4x" } : StoredDict).host
        = some "localhost")
      ∧ ({ host := some "localhost", port := some "4x" } : StoredDict).port
        = some "4x"
      ∧ parseInt "4x" = none
      ∧ ({ host := some "localhost", port := some "4x" } : StoredDict).isEmptyDict
        = false
      ∧ ("localhost:40002", ({ host := some "localhost", port := some "4x" } : StoredDict))
        ∈ [("localhost:40002", ({ host := some "localhost", port := some "4x" } : StoredDict))])
    ∧ ProxyInfo.from_dict { host := some "localhost", port := some "4x" } = none
    ∧ load_proxies_from_redis
        [("localhost:40002", { host := some "localhost", port := some "4x" })] = []
    ∧ (initialize_proxies [] default_proxies).length = default_proxies.length := by
  obtain ⟨h1, h2, h3⟩ :=
    c4_malformed_record_spec { host := some "localhost", port := some "4x" }
      "localhost" "4x"
      [("localhost:40002", { host := some "localhost", port := some "4x" })]
      "localhost:40002" [] default_proxies
      rfl rfl rfl rfl (List.mem_cons_self _ _)
  exact ⟨⟨rfl, rfl, rfl, rfl, List.mem_cons_self _ _⟩, h1, h2, h3⟩

/-- C5: the retry wrapper retries only on messages indicating rate limiting
(`429`), timeout, or connection failure. If attempts `0 .. K-1` fail with
retryable errors and attempt `K` is terminal — it succeeds, fails
non-retryably, or is the last allowed attempt (`K = max_retries`) — then the
wrapper returns attempt `K`'s success value (respectively re-raises its
error), and the sleeps performed are exactly
`backoff_factor * 2^(k-1) + jitter(k)` before each retry attempt
`k = 1 .. K`. In particular: a non-retryable first failure (`K = 0`) raises
immediately with no sleeping, and `max_retries` retryable failures followed
by a success (`K = max_retries`) return the success result; with all
attempts failing retryably (`K = max_retries`), the last error is raised. -/
theorem c5_retry_with_proxy_spec {α : Type} (f : Nat → AttemptResult α)
    (maxR K : Nat) (bf : ℚ) (jit : Nat → ℚ) (hK : K ≤ maxR)
    (hfail : ∀ j, j < K → ∃ e, f j = AttemptResult.err e ∧ isRetryableMsg e = true)
    (hterm : (∃ v, f K = AttemptResult.ok v)
      ∨ (∃ e, f K = AttemptResult.err e ∧ (isRetryableMsg e = false ∨ K = maxR))) :
    (retry_with_proxy f maxR bf jit).1
      = (match f K with
         | AttemptResult.ok v => Except.ok v
         | AttemptResult.err e => Except.error e)
    ∧ (retry_with_proxy f maxR bf jit).2
      = (List.range K).map (fun i => bf * 2 ^ i + jit (i + 1)) := by
  have hrun := retryGo_run f maxR bf jit K hK hfail hterm maxR 0 (by omega) (by omega)
  rw [retry_with_proxy, hrun]
  refine ⟨rfl, ?_⟩
  show (if (0:Nat) = 0 then ([] : List ℚ) else [backoffSleep bf jit 0])
      ++ (List.range' (0 + 1) (K - 0)).map (backoffSleep bf jit) = _
  rw [if_pos rfl, List.nil_append, Nat.sub_zero, Nat.zero_add,
    List.range'_eq_map_range, List.map_map]
  apply List.map_congr_left
  intro i hi
  show backoffSleep bf jit (1 + i) = bf * 2 ^ i + jit (i + 1)
  rw [backoffSleep, Nat.add_comm 1 i, Nat.add_sub_cancel]

/-- The attempt outcomes used by the C5 witness: two retryable failures, then
success. -/
def c5f : Nat → AttemptResult Nat
  | 0 => AttemptResult.err "Connection reset"
  | 1 => AttemptResult.err "HTTP Error 429"
  | _ => AttemptResult.ok 42

/-- The jitter samples used by the C5 witness. -/
def c5jit : Nat → ℚ := fun _ => 0

/-- Witness for C5: `max_retries = 2`, two retryable failures then success. -/
theorem c5_retry_with_proxy_spec_witness :
    ((2:Nat) ≤ 2
      ∧ (∀ j, j < 2 → ∃ e, c5f j = AttemptResult.err e ∧ isRetryableMsg e = true)
      ∧ ((∃ v, c5f 2 = AttemptResult.ok v)
        ∨ (∃ e, c5f 2 = AttemptResult.err e
            ∧ (isRetryableMsg e = false ∨ (2:Nat) = 2))))
    ∧ (retry_with_proxy c5f 2 1 c5jit).1
        = (match c5f 2 with
           | AttemptResult.ok v => Except.ok v
           | AttemptResult.err e => Except.error e)
    ∧ (retry_with_proxy c5f 2 1 c5jit).2
        = (List.range 2).map (fun i => (1:ℚ) * 2 ^ i + c5jit (i + 1)) := by
  have hfail : ∀ j, j < 2 → ∃ e, c5f j = AttemptResult.err e
      ∧ isRetryableMsg e = true := by
    intro j hj
    interval_cases j
    · exact ⟨"Connection reset", rfl, by decide⟩
    · exact ⟨"HTTP Error 429", rfl, by decide⟩
  have hterm : (∃ v, c5f 2 = AttemptResult.ok v)
      ∨ (∃ e, c5f 2 = AttemptResult.err e
          ∧ (isRetryableMsg e = false ∨ (2:Nat) = 2)) := Or.inl ⟨42, rfl⟩
  obtain ⟨h1, h2⟩ := c5_retry_with_proxy_spec c5f 2 2 1 c5jit (le_refl 2) hfail hterm
  exact ⟨⟨le_refl 2, hfail, hterm⟩, h1, h2⟩

/-- C6: serializing a record with `to_dict` (string-keyed, all-string-valued)
and deserializing with `from_dict` reproduces every field — host, port,
protocol, `is_healthy`, `error_count`, `success_count`, `response_time`,
`last_check`, `last_used` — with boolean and numeric semantics preserved
across the string encoding and absent timestamps preserved as absent. The
hypothesis restricts `response_time` to values with a finite decimal
expansion of scale at most `10 ^ 1074`, which covers every IEEE-754 double —
i.e. every value a `response_time` float can hold. -/
theorem c6_round_trip (p : ProxyInfo)
    (hrt : (p.response_time * (10 : ℚ) ^ 1074).den = 1) :
    ProxyInfo.from_dict (ProxyInfo.to_dict p) = some p :=
  from_dict_to_dict p hrt

/-- Witness for C6: a record with both timestamp shapes (one present, one
absent), a demoted health flag and nonzero counters. -/
theorem c6_round_trip_witness :
    ((({ host := "localhost"
         , port := 40001
         , protocol := "socks5"
         , is_healthy := false
         , last_check := some 1700000000
         , response_time := 0
         , error_count := 2
         , success_count := 5
         , last_used := none } : ProxyInfo).response_time
          * (10 : ℚ) ^ 1074).den = 1)
    ∧ ProxyInfo.from_dict (ProxyInfo.to_dict
        { host := "localhost"
          , port := 40001
          , protocol := "socks5"
          , is_healthy := false
          , last_check := some 1700000000
          , response_time := 0
          , error_count := 2
          , success_count := 5
          , last_used := none })
        = some { host := "localhost"
                 , port := 40001
                 , protocol := "socks5"
                 , is_healthy := false
                 , last_check := some 1700000000
                 , response_time := 0
                 , error_count := 2
                 , success_count := 5
                 , last_used := none } := by
  have hden : (((0:ℚ)) * (10 : ℚ) ^ 1074).den = 1 := by
    rw [zero_mul]
    rfl
  exact ⟨hden, c6_round_trip _ hden⟩

/-- C7: `get_pool_status` reports `health_rate = healthy / total` when
`total > 0` and `health_rate = 0` when `total = 0` (no division error), and
`get_healthy_proxies` returns the empty list exactly when `health_rate`
is 0. -/
theorem c7_health_rate_spec (s : PoolState) :
    (get_pool_status s).total_proxies = s.proxies.length
    ∧ (get_pool_status s).healthy_proxies = (get_healthy_proxies s).length
    ∧ (0 < s.proxies.length →
        (get_pool_status s).health_rate
          = ((get_healthy_proxies s).length : ℚ) / (s.proxies.length : ℚ))
    ∧ (s.proxies.length = 0 → (get_pool_status s).health_rate = 0)
    ∧ (get_healthy_proxies s = [] ↔ (get_pool_status s).health_rate = 0) := by
  have hrate : (get_pool_status s).health_rate
      = if s.proxies.length > 0
          then ((get_healthy_proxies s).length : ℚ) / (s.proxies.length : ℚ)
          else 0 := rfl
  refine ⟨rfl, rfl, ?_, ?_, ?_⟩
  · intro h
    rw [hrate, if_pos h]
  · intro h
    rw [hrate, if_neg (by omega)]
  · by_cases htc : s.proxies.length = 0
    · have hpnil : s.proxies = [] := List.length_eq_zero.mp htc
      rw [hrate, if_neg (by omega)]
      constructor
      · intro _
        rfl
      · intro _
        rw [get_healthy_proxies, hpnil]
        rfl
    · have hpos : 0 < s.proxies.length := Nat.pos_of_ne_zero htc
      rw [hrate, if_pos hpos, div_eq_zero_iff]
      have hd : ((s.proxies.length : ℚ)) ≠ 0 := Nat.cast_ne_zero.mpr htc
      constructor
      · intro hnil
        left
        rw [hnil]
        rfl
      · rintro (hz | hz)
        · have hlen : (get_healthy_proxies s).length = 0 := by exact_mod_cast hz
          exact List.length_eq_zero.mp hlen
        · exact absurd hz hd

/-- C8: a `RateLimiter` built with `calls_per_second` derives
`min_interval = 1 / calls_per_second` (so 0.5 s at 2.0 calls/s);
`wait_if_needed` updates the last-call timestamp only after waiting, to the
very instant at which it returns; and under the idealized clock a further
call entered at or after the previous return returns no earlier than
`min_interval` after the previous call returned. -/
theorem c8_rate_limiter_spec (cps : ℚ) (rl : RateLimiter) (now1 now2 : ℚ)
    (h2 : (wait_if_needed rl now1).1 ≤ now2) :
    (RateLimiter.init cps).min_interval = 1 / cps
    ∧ (RateLimiter.init 2).min_interval = 1 / 2
    ∧ (wait_if_needed rl now1).2.last_call_time = (wait_if_needed rl now1).1
    ∧ (wait_if_needed rl now1).2.min_interval = rl.min_interval
    ∧ (wait_if_needed rl now1).1 + rl.min_interval
        ≤ (wait_if_needed (wait_if_needed rl now1).2 now2).1 := by
  refine ⟨rfl, rfl, rfl, rfl, ?_⟩
  show (wait_if_needed rl now1).1 + rl.min_interval
      ≤ (if now2 - (wait_if_needed rl now1).1 < rl.min_interval
          then now2 + (rl.min_interval - (now2 - (wait_if_needed rl now1).1))
          else now2)
  by_cases hlt : now2 - (wait_if_needed rl now1).1 < rl.min_interval
  · rw [if_pos hlt]
    ring_nf
    linarith [le_refl ((wait_if_needed rl now1).1 + rl.min_interval)]
  · rw [if_neg hlt]
    push_neg at hlt
    linarith

/-- Witness for C8: the limiter at 2.0 calls/s, two calls entered
back-to-back. -/
theorem c8_rate_limiter_spec_witness :
    ((wait_if_needed (RateLimiter.init 2) 10).1
        ≤ (wait_if_needed (RateLimiter.init 2) 10).1)
    ∧ (RateLimiter.init 2).min_interval = 1 / 2
    ∧ (wait_if_needed (RateLimiter.init 2) 10).2.last_call_time
        = (wait_if_needed (RateLimiter.init 2) 10).1
    ∧ (wait_if_needed (RateLimiter.init 2) 10).2.min_interval
        = (RateLimiter.init 2).min_interval
    ∧ (wait_if_needed (RateLimiter.init 2) 10).1 + (RateLimiter.init 2).min_interval
        ≤ (wait_if_needed (wait_if_needed (RateLimiter.init 2) 10).2
            (wait_if_needed (RateLimiter.init 2) 10).1).1 := by
  obtain ⟨_, h2, h3, h4, h5⟩ :=
    c8_rate_limiter_spec 2 (RateLimiter.init 2) 10
      (wait_if_needed (RateLimiter.init 2) 10).1 (le_refl _)
  exact ⟨le_refl _, h2, h3, h4, h5⟩

/-- C9: the background health-check loop never terminates because of an
exception: every iteration either completes the probe pass and sleeps the
60-second interval or catches the raised exception and sleeps the 10-second
fallback — both continue the loop — so for every sequence of pass outcomes
the loop is still alive after any number of iterations. -/
theorem c9_health_loop_never_terminates (outcomes : Nat → Bool) (n : Nat) :
    loopAlive outcomes n = true
    ∧ health_check_iteration true = LoopStep.continueAfter 10
    ∧ health_check_iteration false = LoopStep.continueAfter 60 := by
  refine ⟨?_, rfl, rfl⟩
  induction n with
  | zero => rfl
  | succ n ih =>
    rw [loopAlive, ih, Bool.true_and]
    cases houtcome : outcomes n <;> rfl

/-- C10: `report_proxy_error` modifies only `error_count` (incremented by 1)
and possibly `is_healthy` (set false exactly when the new count reaches the
threshold); `success_count`, `response_time`, `last_check` and `last_used`
are left unchanged — in particular a fresh record demoted purely through
reported errors, never probed, still has `last_check` and `last_used`
absent. -/
theorem c10_report_error_frame (maxErr : Int) (p : ProxyInfo)
    (host : String) (port : Int) (n : Nat) :
    (report_proxy_error maxErr p).1.error_count = p.error_count + 1
    ∧ (report_proxy_error maxErr p).1.is_healthy
        = (if maxErr ≤ p.error_count + 1 then false else p.is_healthy)
    ∧ (report_proxy_error maxErr p).1.success_count = p.success_count
    ∧ (report_proxy_error maxErr p).1.response_time = p.response_time
    ∧ (report_proxy_error maxErr p).1.last_check = p.last_check
    ∧ (report_proxy_error maxErr p).1.last_used = p.last_used
    ∧ (report_proxy_error maxErr p).1.host = p.host
    ∧ (report_proxy_error maxErr p).1.port = p.port
    ∧ (report_proxy_error maxErr p).1.protocol = p.protocol
    ∧ (reportErrors maxErr n { host := host, port := port }).last_check = none
    ∧ (reportErrors maxErr n { host := host, port := port }).last_used = none := by
  obtain ⟨hec, hih, hho, hpo, hpr, hsc, hrt2, hlc, hlu⟩ := report_error_step maxErr p
  obtain ⟨_, _, _, _, _, _, flc, flu⟩ :=
    reportErrors_fields maxErr n { host := host, port := port }
  exact ⟨hec, hih, hsc, hrt2, hlc, hlu, hho, hpo, hpr, flc, flu⟩
